import Mathlib

/-!
Verification of the EC-aware rebalance engine (package reb) and the vanilla
rebalance retransmitter of this repository, by a shallow embedding of the
relevant Go functions into Lean.

Conventions used throughout:
* Go machine integers that never overflow in the modelled paths (slice IDs,
  slice counts, object sizes, loop indices) are embedded as Int or Nat.
* Go nil-able pointers (meta, sgl) are embedded as Option.
* Go maps are embedded as association lists; lookups take the first match and
  map iteration follows list order (Go map iteration order is unspecified, so
  theorems that depend on an order quantify over permutations instead).
* Fallible calls are Except / Option; external effects (disk writes, stream
  sends, HTTP calls) are parameters of the embedding: a Bool- or
  Option-valued oracle stands for the outcome of each external call.
-/

/-- Bucket identity: name, provider, namespace (cmn.Bck). -/
structure Bck where
  name : String
  provider : String
  ns : String
deriving DecidableEq, Repr

/-- Modelled from the spec: cmn.ProviderAIS = "ais" (src/cmn/api.go defines the
constant; the predicate cmn.IsProviderAIS itself lives outside src/ and, per
the spec glossary, holds exactly for AIS-native buckets, i.e. provider "ais"). -/
def ProviderAIS : String := "ais"

/-- Modelled from the spec: cmn.IsProviderAIS bck = (bck.Provider == ProviderAIS). -/
def IsProviderAIS (b : Bck) : Bool := b.provider == ProviderAIS

/-- Modelled from the spec: cmn.IsProviderCloud with acceptAnon=false holds for
the external/cloud provider class ("aws", "gcp"), never for AIS-native buckets. -/
def IsProviderCloud (b : Bck) : Bool := b.provider == "aws" || b.provider == "gcp"

/-- Object ready states (const block of reb: objWaiting, objReceived, objDone). -/
def objWaiting : Nat := 0

/-- All slices have been received, can start rebuilding. -/
def objReceived : Nat := 1

/-- Object has been rebuilt and all new slices were sent to other targets. -/
def objDone : Nat := 2

/-- A full info about a CT found on a target (rebCT). The meta pointer is
embedded as an Option marker and the received-data sgl as an Option size. -/
structure RebCT where
  realFQN : String
  hrwFQN : String
  meta : Option Int
  sgl : Option Nat
  bck : Bck
  objName : String
  daemonID : String
  objHash : String
  objSize : Int
  sliceID : Int
  dataSlices : Int
  paritySlices : Int
deriving DecidableEq, Repr

/-- Generate unique ID for an object (uniqueWaitID): "bck/objName". -/
def uniqueWaitID (bck : Bck) (objName : String) : String :=
  bck.provider ++ "/" ++ bck.ns ++ "/" ++ bck.name ++ "/" ++ objName

/-! ### The EC batch loop (rebalance / rebalanceBatch), claim C7 -/

/-- Go cmn.Min for ints restricted to Nat. -/
def cmnMin (a b : Nat) : Nat := if a < b then a else b

/-- The sequence of starting indices produced by the loop in Manager.rebalance:
batchCurr starts at 0 and increases by batchSize while batchCurr <= batchLast
(batchLast = number of broken objects - 1). bs = 0 never occurs (the config
batch size defaults to 8); the condition bs > 0 mirrors that the Go loop
terminates only for positive batch sizes. -/
def batchStartsFrom (bs n curr : Nat) : List Nat :=
  if _h : 0 < bs ∧ curr < n then
    curr :: batchStartsFrom bs n (curr + bs)
  else []
termination_by n - curr
decreasing_by omega

/-- Starting indices of all batches of Manager.rebalance for n broken objects. -/
def batchStarts (bs n : Nat) : List Nat := batchStartsFrom bs n 0

/-- The object indices processed by Manager.rebalanceBatch for a batch starting
at batchCurr: objIdx runs from batchCurr to min(batchCurr+batchSize, n). -/
def batchIndices (bs n batchCurr : Nat) : List Nat :=
  List.range' batchCurr (cmnMin (batchCurr + bs) n - batchCurr)

/-- All object indices processed over the whole run, batch by batch. -/
def allBatchIndices (bs n : Nat) : List (List Nat) :=
  (batchStarts bs n).map (batchIndices bs n)

/-! ### A model of Go sort.Slice

sort.Slice(x, less) guarantees only that the result is a permutation of x that
is sorted with respect to less (when less is a strict weak order). We model it
by an insertion sort over the non-strict complement of less; all theorems rely
on the sortedness/permutation contract only, which any Go implementation of
sort.Slice satisfies. -/

/-- Insert an element into a list, before the first element b with le a b. -/
def insertLe (le : α → α → Bool) (a : α) : List α → List α
  | [] => [a]
  | b :: t => if le a b then a :: b :: t else b :: insertLe le a t

/-- Insertion sort by a Bool-valued total preorder. -/
def sortLe (le : α → α → Bool) : List α → List α
  | [] => []
  | a :: t => insertLe le a (sortLe le t)

/-- Go sort.Slice: sort by the comparator less (so that no later element is
strictly less than an earlier one). -/
def sortSlice (less : α → α → Bool) (l : List α) : List α :=
  sortLe (fun a b => !(less b a)) l

theorem perm_insertLe (le : α → α → Bool) (a : α) :
    ∀ l : List α, List.Perm (insertLe le a l) (a :: l) := by
  intro l
  induction l with
  | nil => simp [insertLe]
  | cons b t ih =>
    simp only [insertLe]
    by_cases h : le a b
    · simp [h]
    · simp only [h, if_false]
      exact List.Perm.trans (List.Perm.cons b ih) (List.Perm.swap a b t)

theorem perm_sortLe (le : α → α → Bool) :
    ∀ l : List α, List.Perm (sortLe le l) l := by
  intro l
  induction l with
  | nil => simp [sortLe]
  | cons a t ih =>
    exact List.Perm.trans (perm_insertLe le a (sortLe le t)) (List.Perm.cons a ih)

theorem mem_insertLe {le : α → α → Bool} {a x : α} {l : List α} :
    x ∈ insertLe le a l ↔ x = a ∨ x ∈ l := by
  constructor
  · intro h
    have := (perm_insertLe le a l).mem_iff.mp h
    simpa using this
  · intro h
    apply (perm_insertLe le a l).mem_iff.mpr
    simpa using h

/-- Sortedness of insertLe, with totality and transitivity required only on
elements satisfying a predicate P. -/
theorem pairwise_insertLe {le : α → α → Bool} {P : α → Prop}
    (htot : ∀ a b, P a → P b → (le a b || le b a) = true)
    (htr : ∀ a b c, P a → P b → P c → le a b = true → le b c = true → le a c = true)
    {a : α} (ha : P a) :
    ∀ {l : List α}, (∀ x ∈ l, P x) →
      l.Pairwise (fun x y => le x y = true) →
      (insertLe le a l).Pairwise (fun x y => le x y = true) := by
  intro l
  induction l with
  | nil => intro _ _; simp [insertLe]
  | cons b t ih =>
    intro hP hp
    have hPb : P b := hP b (by simp)
    have hPt : ∀ x ∈ t, P x := fun x hx => hP x (by simp [hx])
    simp only [insertLe]
    by_cases h : le a b
    · simp only [h, if_true]
      refine List.Pairwise.cons ?_ hp
      intro x hx
      rcases List.mem_cons.mp hx with rfl | hxt
      · exact h
      · exact htr a b x ha hPb (hPt x hxt) h (List.rel_of_pairwise_cons hp hxt)
    · simp only [h, if_false]
      have hba : le b a = true := by
        have := htot a b ha hPb
        rcases Bool.or_eq_true_iff.mp this with h1 | h1
        · exact absurd h1 h
        · exact h1
      refine List.Pairwise.cons ?_ (ih hPt (List.Pairwise.sublist (List.sublist_cons_self b t) hp))
      intro x hx
      rcases mem_insertLe.mp hx with rfl | hxt
      · exact hba
      · exact List.rel_of_pairwise_cons hp hxt

/-- Sortedness of sortLe under element-local totality and transitivity. -/
theorem pairwise_sortLe {le : α → α → Bool} {P : α → Prop}
    (htot : ∀ a b, P a → P b → (le a b || le b a) = true)
    (htr : ∀ a b c, P a → P b → P c → le a b = true → le b c = true → le a c = true) :
    ∀ {l : List α}, (∀ x ∈ l, P x) →
      (sortLe le l).Pairwise (fun x y => le x y = true) := by
  intro l
  induction l with
  | nil => intro _; simp [sortLe]
  | cons a t ih =>
    intro hP
    have hPa : P a := hP a (by simp)
    have hPt : ∀ x ∈ t, P x := fun x hx => hP x (by simp [hx])
    exact pairwise_insertLe htot htr hPa
      (fun x hx => hPt x ((perm_sortLe le t).mem_iff.mp hx)) (ih hPt)

/-- Two sorted permutations of the same list coincide, given antisymmetry on
the elements involved (uniqueness of the sorted order). -/
theorem eq_of_perm_of_pairwiseLe {le : α → α → Bool} :
    ∀ {l1 l2 : List α}, List.Perm l1 l2 →
      (∀ a b, a ∈ l1 → b ∈ l1 → le a b = true → le b a = true → a = b) →
      l1.Pairwise (fun x y => le x y = true) →
      l2.Pairwise (fun x y => le x y = true) → l1 = l2 := by
  intro l1
  induction l1 with
  | nil => intro l2 hperm _ _ _; simpa using hperm.nil_eq
  | cons a t1 ih =>
    intro l2 hperm hanti hp1 hp2
    cases l2 with
    | nil => exact absurd hperm.symm.nil_eq (by simp)
    | cons b t2 =>
      have hab : a = b := by
        by_contra hne
        have hbmem : b ∈ a :: t1 := hperm.mem_iff.mpr (by simp)
        have hamem : a ∈ b :: t2 := hperm.mem_iff.mp (by simp)
        have hbt1 : b ∈ t1 := by
          rcases List.mem_cons.mp hbmem with h | h
          · exact absurd h.symm hne
          · exact h
        have hat2 : a ∈ t2 := by
          rcases List.mem_cons.mp hamem with h | h
          · exact absurd h hne
          · exact h
        have h1 : le a b = true := List.rel_of_pairwise_cons hp1 hbt1
        have h2 : le b a = true := List.rel_of_pairwise_cons hp2 hat2
        exact hne (hanti a b (by simp) (by simp [hbt1]) h1 h2)
      subst hab
      have hperm2 : List.Perm t1 t2 := hperm.cons_inv
      have : t1 = t2 := by
        refine ih hperm2 ?_ hp1.tail hp2.tail
        intro x y hx hy hxy hyx
        exact hanti x y (by simp [hx]) (by simp [hy]) hxy hyx
      rw [this]

/-! ### Association-list embedding of Go maps -/

/-- Go map lookup: value stored under key k (first match). -/
def assocGet (k : String) (l : List (String × α)) : Option α :=
  (l.find? (fun p => p.1 == k)).map Prod.snd

/-- Go map assignment m[k] = v: overwrite if present, else add. -/
def assocSet (k : String) (v : α) (l : List (String × α)) : List (String × α) :=
  if l.any (fun p => p.1 == k) then
    l.map (fun p => if p.1 == k then (k, v) else p)
  else l ++ [(k, v)]

/-! ### Object aggregation (rebObject) and local properties

The merge phase (globalCTList.addCT) creates rebObject values carrying only
cts, mainDaemon and bck; every other field keeps its Go zero value (in
particular objName = "") until calcLocalProps fills the derived fields. -/

/-- The slice of rebObject state that exists at merge time. -/
structure MergeObj where
  cts : List (String × List RebCT)
  mainDaemon : String
  bck : Bck
  objName : String
deriving DecidableEq, Repr

/-- The derived per-object fields computed by Manager.calcLocalProps that the
detector and the repair executor read (hrwTargets/inHrwList/ctExist are not
needed by any claim and are omitted; the sender existence check is kept
because its failure aborts processing of the object). -/
structure ObjProps where
  bck : Bck
  objName : String
  objSize : Int
  isECCopy : Bool
  dataSlices : Int
  paritySlices : Int
  uid : String
  isMain : Bool
  locCT : List (String × RebCT)
  hasCT : Bool
  mainHasAny : Bool
  mainSliceID : Int
  fullObjFound : Bool
deriving DecidableEq, Repr

/-- rebObject.newest: the CT group (by object hash) of largest cardinality;
on ties the group met first in iteration order is kept (max < len test). -/
def newest (cts : List (String × List RebCT)) : List RebCT :=
  (cts.foldl (fun acc g => if acc.length < g.2.length then g.2 else acc) [])

/-- rebObject.requiredCT: parity+1 for replicated, data+parity+1 for EC. -/
def requiredCT (isECCopy : Bool) (dataSlices paritySlices : Int) : Int :=
  if isECCopy then paritySlices + 1 else dataSlices + paritySlices + 1

/-- Accumulator of the per-CT flag loop inside calcLocalProps. -/
structure FlagsAcc where
  locCT : List (String × RebCT)
  hasCT : Bool
  mainHasAny : Bool
  mainSliceID : Int
  fullObjFound : Bool

/-- One iteration of the flag loop of calcLocalProps over a CT. -/
def calcFlagsStep (localDaemon mainDaemon : String) (st : FlagsAcc) (ct : RebCT) : FlagsAcc :=
  { locCT := assocSet ct.daemonID ct st.locCT
    hasCT := st.hasCT || (ct.daemonID == localDaemon)
    mainHasAny := st.mainHasAny || (ct.daemonID == mainDaemon)
    mainSliceID := if ct.daemonID == mainDaemon then ct.sliceID else st.mainSliceID
    fullObjFound := st.fullObjFound || (ct.sliceID == 0) }

/-- Manager.calcLocalProps. External inputs are parameters: the local daemon
ID, the smap size, the HRW target-list function (None = error, in which case
the caller logs and skips the object), and ec.IsECCopy as a predicate on the
object size. A failure of the assertions (empty newest list, no sender found)
stops processing of the object and is modelled as None. -/
def calcLocalProps (localDaemon : String) (smapSize : Nat)
    (hrwTargetListN : Bck → String → Int → Option (List String))
    (isECCopyOf : Int → Bool) (obj : MergeObj) : Option ObjProps :=
  let cts := newest obj.cts
  match cts with
  | [] => none
  | mainSlice :: _ =>
    let isECCopy := isECCopyOf mainSlice.objSize
    let ctReq := requiredCT isECCopy mainSlice.dataSlices mainSlice.paritySlices
    let st := cts.foldl (calcFlagsStep localDaemon obj.mainDaemon)
      { locCT := [], hasCT := false, mainHasAny := false, mainSliceID := 0,
        fullObjFound := false }
    let genCount := max ctReq (smapSize : Int)
    match hrwTargetListN mainSlice.bck mainSlice.objName genCount with
    | none => none
    | some hrwTargets =>
      match hrwTargets.find? (fun t => (assocGet t st.locCT).isSome) with
      | none => none
      | some _ =>
        some { bck := mainSlice.bck
               objName := mainSlice.objName
               objSize := mainSlice.objSize
               isECCopy := isECCopy
               dataSlices := mainSlice.dataSlices
               paritySlices := mainSlice.paritySlices
               uid := uniqueWaitID mainSlice.bck mainSlice.objName
               isMain := obj.mainDaemon == localDaemon
               locCT := st.locCT
               hasCT := st.hasCT
               mainHasAny := st.mainHasAny
               mainSliceID := st.mainSliceID
               fullObjFound := st.fullObjFound }

/-! ### The broken-object detector (Manager.detectBroken), claims C1 and C9 -/

/-- The sort comparator ctLess of detectBroken, verbatim from the source:
when the providers differ the result is IsProviderAIS of the SECOND object
(broken[j]); otherwise bucket names, then object names. -/
def ctLess (a b : ObjProps) : Bool :=
  if a.bck.provider != b.bck.provider then IsProviderAIS b.bck
  else if a.bck.name != b.bck.name then decide (a.bck.name < b.bck.name)
  else decide (a.objName < b.objName)

/-- External inputs of detectBroken: provider config, bucket validity
(bck.Init and bmd.Get both succeed), and the calcLocalProps parameters. -/
structure DetectArgs where
  localDaemon : String
  smapSize : Nat
  hrwTargetListN : Bck → String → Int → Option (List String)
  isECCopyOf : Int → Bool
  cloudProvider : String
  validBck : String → String → Bool

/-- The per-bucket loop body of detectBroken: append every object whose main
target does not hold the full object (or, for replicas, any copy); objects
whose calcLocalProps fails are logged and skipped. -/
def detectOne (args : DetectArgs) (objs : List (String × MergeObj)) : List ObjProps :=
  objs.filterMap (fun p =>
    match calcLocalProps args.localDaemon args.smapSize args.hrwTargetListN
        args.isECCopyOf p.2 with
    | none => none
    | some props =>
      if (props.mainSliceID == 0 || props.isECCopy) && props.mainHasAny then none
      else some props)

/-- The unsorted broken list: both provider maps (AIS-native first in our
fixed iteration order; Go iterates the two-entry provider map in unspecified
order, which the final sort makes irrelevant), skipping an empty cloud
provider and invalid buckets. -/
def brokenPreSort (args : DetectArgs)
    (ais cloud : List (String × List (String × MergeObj))) : List ObjProps :=
  ([(ProviderAIS, ais), (args.cloudProvider, cloud)].filter (fun pr => pr.1 != "")).flatMap
    (fun pr => (pr.2.filter (fun b => args.validBck pr.1 b.1)).flatMap
      (fun b => detectOne args b.2))

/-- Manager.detectBroken: build the unsorted broken list, then sort it with
sort.Slice under ctLess. -/
def detectBroken (args : DetectArgs)
    (ais cloud : List (String × List (String × MergeObj))) : List ObjProps :=
  sortSlice ctLess (brokenPreSort args ais cloud)

/-! ### Order theory of the ctLess comparator -/

/-- The non-strict complement of ctLess (the relation sort.Slice sorts by). -/
def ctLe (a b : ObjProps) : Bool := !(ctLess b a)

/-- Equal providers: ctLess is the strict lexicographic order on
(bucket name, object name). -/
def bckObjLt (a b : ObjProps) : Prop :=
  a.bck.name < b.bck.name ∨ (a.bck.name = b.bck.name ∧ a.objName < b.objName)

theorem ctLess_of_ne_provider {a b : ObjProps} (h : a.bck.provider ≠ b.bck.provider) :
    ctLess a b = IsProviderAIS b.bck := by
  simp [ctLess, h]

theorem ctLess_of_eq_provider {a b : ObjProps} (h : a.bck.provider = b.bck.provider) :
    ctLess a b = true ↔ bckObjLt a b := by
  by_cases hn : a.bck.name = b.bck.name
  · simp [ctLess, bckObjLt, h, hn]
  · simp [ctLess, bckObjLt, h, hn]

theorem isProviderAIS_iff {b : Bck} : IsProviderAIS b = true ↔ b.provider = ProviderAIS := by
  simp [IsProviderAIS]

theorem isProviderAIS_false_iff {b : Bck} :
    IsProviderAIS b = false ↔ b.provider ≠ ProviderAIS := by
  simp [IsProviderAIS]

theorem bckObjLt_asymm {a b : ObjProps} : bckObjLt a b → bckObjLt b a → False := by
  rintro (h1 | ⟨h1, h1o⟩) (h2 | ⟨h2, h2o⟩)
  · exact absurd h2 (lt_asymm h1)
  · exact ne_of_lt h1 h2.symm
  · exact ne_of_lt h2 h1.symm
  · exact absurd h2o (lt_asymm h1o)

theorem bckObjLt_compare {a b c : ObjProps} (h : bckObjLt c a) :
    bckObjLt c b ∨ bckObjLt b a := by
  rcases lt_trichotomy c.bck.name b.bck.name with hlt | heq | hgt
  · exact Or.inl (Or.inl hlt)
  · rcases h with h | ⟨hn, ho⟩
    · exact Or.inr (Or.inl (heq ▸ h))
    · rcases lt_trichotomy c.objName b.objName with olt | oeq | ogt
      · exact Or.inl (Or.inr ⟨heq, olt⟩)
      · exact Or.inr (Or.inr ⟨heq.symm.trans hn, oeq ▸ ho⟩)
      · exact Or.inr (Or.inr ⟨heq.symm.trans hn, lt_trans ogt ho⟩)
  · rcases h with h | ⟨hn, _⟩
    · exact Or.inr (Or.inl (lt_trans hgt h))
    · exact Or.inr (Or.inl (hn ▸ hgt))

theorem bckObjLt_total_eq {a b : ObjProps} (h1 : ¬bckObjLt a b) (h2 : ¬bckObjLt b a) :
    a.bck.name = b.bck.name ∧ a.objName = b.objName := by
  have hn : a.bck.name = b.bck.name := by
    rcases lt_trichotomy a.bck.name b.bck.name with h | h | h
    · exact absurd (Or.inl h) h1
    · exact h
    · exact absurd (Or.inl h) h2
  refine ⟨hn, ?_⟩
  rcases lt_trichotomy a.objName b.objName with h | h | h
  · exact absurd (Or.inr ⟨hn, h⟩) h1
  · exact h
  · exact absurd (Or.inr ⟨hn.symm, h⟩) h2

theorem ctLess_asymm (a b : ObjProps) : ctLess a b = true → ctLess b a = true → False := by
  intro h1 h2
  by_cases hp : a.bck.provider = b.bck.provider
  · exact bckObjLt_asymm ((ctLess_of_eq_provider hp).mp h1)
      ((ctLess_of_eq_provider hp.symm).mp h2)
  · have e1 := (ctLess_of_ne_provider hp) ▸ h1
    have e2 := (ctLess_of_ne_provider (Ne.symm hp)) ▸ h2
    exact hp ((isProviderAIS_iff.mp e2).trans (isProviderAIS_iff.mp e1).symm)

theorem ctLe_total (a b : ObjProps) : (ctLe a b || ctLe b a) = true := by
  cases h1 : ctLess a b <;> cases h2 : ctLess b a <;>
    simp [ctLe, h1, h2]
  exact ctLess_asymm a b h1 h2

/-- The provider restriction under which detectBroken runs: AIS-native or the
single configured cloud provider. -/
def TwoProviders (cp : String) (o : ObjProps) : Prop :=
  o.bck.provider = ProviderAIS ∨ o.bck.provider = cp

instance (cp : String) (o : ObjProps) : Decidable (TwoProviders cp o) := by
  unfold TwoProviders
  infer_instance

theorem ctLe_trans (cp : String) (a b c : ObjProps)
    (hPa : TwoProviders cp a) (hPb : TwoProviders cp b) (hPc : TwoProviders cp c) :
    ctLe a b = true → ctLe b c = true → ctLe a c = true := by
  simp only [ctLe, Bool.not_eq_true', Bool.not_eq_true]
  intro h1 h2
  by_contra hca
  have hca : ctLess c a = true := by
    cases h : ctLess c a
    · exact absurd h hca
    · rfl
  by_cases hac : c.bck.provider = a.bck.provider
  · have hlt : bckObjLt c a := (ctLess_of_eq_provider hac).mp hca
    by_cases hba : b.bck.provider = a.bck.provider
    · have hcb : c.bck.provider = b.bck.provider := hac.trans hba.symm
      rcases bckObjLt_compare (b := b) hlt with h | h
      · exact absurd ((ctLess_of_eq_provider hcb).mpr h) (by simp [h2])
      · exact absurd ((ctLess_of_eq_provider hba).mpr h) (by simp [h1])
    · have e1 := ctLess_of_ne_provider hba
      rw [h1] at e1
      have hanotais : a.bck.provider ≠ ProviderAIS := isProviderAIS_false_iff.mp e1.symm
      have hacp : a.bck.provider = cp := hPa.resolve_left hanotais
      have hbais : b.bck.provider = ProviderAIS := by
        rcases hPb with h | h
        · exact h
        · exact absurd (h.trans hacp.symm) hba
      have hcb : c.bck.provider ≠ b.bck.provider := by
        rw [hac, hbais]
        exact hanotais
      have e2 := ctLess_of_ne_provider hcb
      rw [h2] at e2
      exact isProviderAIS_false_iff.mp e2.symm hbais
  · have e := ctLess_of_ne_provider hac
    rw [hca] at e
    have haais : a.bck.provider = ProviderAIS := isProviderAIS_iff.mp e.symm
    by_cases hba : b.bck.provider = a.bck.provider
    · have hcb : c.bck.provider ≠ b.bck.provider := fun h => hac (h.trans hba)
      have e2 := ctLess_of_ne_provider hcb
      rw [h2] at e2
      exact isProviderAIS_false_iff.mp e2.symm (hba.trans haais)
    · have e1 := ctLess_of_ne_provider hba
      rw [h1] at e1
      exact isProviderAIS_false_iff.mp e1.symm haais

theorem ctLe_antisymm_key (cp : String) (a b : ObjProps)
    (hPa : TwoProviders cp a) (hPb : TwoProviders cp b)
    (h1 : ctLe a b = true) (h2 : ctLe b a = true) :
    a.bck.provider = b.bck.provider ∧ a.bck.name = b.bck.name ∧ a.objName = b.objName := by
  simp only [ctLe, Bool.not_eq_true'] at h1 h2
  have hp : a.bck.provider = b.bck.provider := by
    by_contra hp
    have e1 := ctLess_of_ne_provider hp
    rw [h2] at e1
    have e2 := ctLess_of_ne_provider (Ne.symm hp)
    rw [h1] at e2
    rcases hPa with h | h
    · exact isProviderAIS_false_iff.mp e2.symm h
    · rcases hPb with h3 | h3
      · exact isProviderAIS_false_iff.mp e1.symm h3
      · exact hp (h.trans h3.symm)
  have hab : ¬bckObjLt a b := fun h => by
    have := (ctLess_of_eq_provider hp).mpr h
    rw [h2] at this
    exact Bool.false_ne_true this
  have hba : ¬bckObjLt b a := fun h => by
    have := (ctLess_of_eq_provider hp.symm).mpr h
    rw [h1] at this
    exact Bool.false_ne_true this
  exact ⟨hp, bckObjLt_total_eq hab hba⟩

/-! ### Claims C1 and C9 -/

/-- Unfolding detectBroken to the generic sort (definitional). -/
theorem detectBroken_eq_sortLe (args : DetectArgs)
    (ais cloud : List (String × List (String × MergeObj))) :
    detectBroken args ais cloud = sortLe ctLe (brokenPreSort args ais cloud) := rfl

/-- Follows the spec's words, for refinement comparison only: the sort key the
spec claims — AIS-native provider class FIRST, then bucket name, then object
name (note IsProviderAIS of the first argument, where the source has the
second). -/
def specCtLess (a b : ObjProps) : Bool :=
  if a.bck.provider != b.bck.provider then IsProviderAIS a.bck
  else if a.bck.name != b.bck.name then decide (a.bck.name < b.bck.name)
  else decide (a.objName < b.objName)

/-- A concrete AIS-native bucket. -/
def exBckA : Bck := { name := "b", provider := "ais", ns := "" }

/-- A concrete cloud bucket of the same name. -/
def exBckC : Bck := { name := "b", provider := "aws", ns := "" }

/-- A concrete slice CT held by daemon d on bucket b. -/
def exCT (b : Bck) (d : String) : RebCT :=
  { realFQN := "", hrwFQN := "", meta := none, sgl := none, bck := b,
    objName := "o", daemonID := d, objHash := "h", objSize := 100,
    sliceID := 1, dataSlices := 1, paritySlices := 1 }

/-- A merge-time object on bucket b: one hash group with one slice CT held by
d1; the main daemon m holds nothing (so the detector keeps the object). -/
def exMergeObj (b : Bck) : MergeObj :=
  { cts := [("h", [exCT b "d1"])], mainDaemon := "m", bck := b, objName := "" }

/-- Concrete detector arguments: local daemon d1, 2 targets, a fixed HRW list,
no replication, cloud provider "aws", all buckets valid. -/
def exArgs : DetectArgs :=
  { localDaemon := "d1", smapSize := 2,
    hrwTargetListN := fun _ _ _ => some ["d1", "m"],
    isECCopyOf := fun _ => false,
    cloudProvider := "aws",
    validBck := fun _ _ => true }

/-- One AIS bucket with one broken object. -/
def exAis : List (String × List (String × MergeObj)) := [("b", [("o", exMergeObj exBckA)])]

/-- One cloud bucket with one broken object. -/
def exCloud : List (String × List (String × MergeObj)) := [("b", [("o", exMergeObj exBckC)])]

/-- counterexample for claim C1: a run of the detector over one broken object
in an AIS-native bucket and one in a cloud bucket puts the CLOUD object first
(the ctLess comparator returns IsProviderAIS of its second argument, so
AIS-native buckets sort last, not first): the output provider sequence is
["aws", "ais"], which is not sorted by the spec's claimed AIS-first key. -/
theorem C1_counterexample :
    ((detectBroken exArgs exAis exCloud).map (fun o => o.bck.provider) = ["aws", "ais"]) ∧
    ¬ (detectBroken exArgs exAis exCloud).Pairwise (fun a b => specCtLess b a = false) := by
  constructor
  · decide
  · decide

/-- claim C1 (amended): the BrokenList produced by detectBroken is a
permutation of the detected objects sorted by the code's comparator — provider
classes ordered with the external/cloud class FIRST and AIS-native last, then
bucket name, then object name — and the sorted sequence is identical for every
target (any permutation of the same detected objects sorts to the same
sequence), provided the objects use the AIS provider and a single cloud
provider and no two distinct objects share the (provider, bucket name, object
name) sort key. -/
theorem C1_amended (args : DetectArgs)
    (ais cloud : List (String × List (String × MergeObj))) (cp : String)
    (hprov : ∀ o ∈ brokenPreSort args ais cloud, TwoProviders cp o)
    (hkeys : ∀ a ∈ brokenPreSort args ais cloud, ∀ b ∈ brokenPreSort args ais cloud,
      a.bck.provider = b.bck.provider → a.bck.name = b.bck.name → a.objName = b.objName →
      a = b) :
    List.Perm (detectBroken args ais cloud) (brokenPreSort args ais cloud) ∧
    (detectBroken args ais cloud).Pairwise (fun a b => ctLess b a = false) ∧
    (detectBroken args ais cloud).Pairwise
      (fun a b => a.bck.provider ≠ b.bck.provider → IsProviderAIS a.bck = false) ∧
    ∀ l2, List.Perm (brokenPreSort args ais cloud) l2 →
      sortSlice ctLess (brokenPreSort args ais cloud) = sortSlice ctLess l2 := by
  have hperm : List.Perm (detectBroken args ais cloud) (brokenPreSort args ais cloud) := by
    rw [detectBroken_eq_sortLe]
    exact perm_sortLe ctLe (brokenPreSort args ais cloud)
  have hpair : (detectBroken args ais cloud).Pairwise (fun x y => ctLe x y = true) := by
    rw [detectBroken_eq_sortLe]
    exact pairwise_sortLe (fun a b _ _ => ctLe_total a b) (ctLe_trans cp) hprov
  refine ⟨hperm, ?_, ?_, ?_⟩
  · exact hpair.imp (fun h => by simpa [ctLe] using h)
  · refine hpair.imp ?_
    intro a b h hne
    have hba : ctLess b a = false := by simpa [ctLe] using h
    have := ctLess_of_ne_provider (a := b) (b := a) (Ne.symm hne)
    rw [hba] at this
    exact this.symm
  · intro l2 hl2
    have hprov2 : ∀ o ∈ l2, TwoProviders cp o := fun o ho =>
      hprov o (hl2.mem_iff.mpr ho)
    have hp1 : (sortLe ctLe (brokenPreSort args ais cloud)).Pairwise
        (fun x y => ctLe x y = true) :=
      pairwise_sortLe (fun a b _ _ => ctLe_total a b) (ctLe_trans cp) hprov
    have hp2 : (sortLe ctLe l2).Pairwise (fun x y => ctLe x y = true) :=
      pairwise_sortLe (fun a b _ _ => ctLe_total a b) (ctLe_trans cp) hprov2
    have hpermS : List.Perm (sortLe ctLe (brokenPreSort args ais cloud)) (sortLe ctLe l2) :=
      ((perm_sortLe ctLe _).trans hl2).trans (perm_sortLe ctLe l2).symm
    show sortLe ctLe _ = sortLe ctLe l2
    refine eq_of_perm_of_pairwiseLe hpermS ?_ hp1 hp2
    intro a b hma hmb h1 h2
    have hma2 : a ∈ brokenPreSort args ais cloud := (perm_sortLe ctLe _).mem_iff.mp hma
    have hmb2 : b ∈ brokenPreSort args ais cloud := (perm_sortLe ctLe _).mem_iff.mp hmb
    obtain ⟨hp, hn, ho⟩ := ctLe_antisymm_key cp a b (hprov a hma2) (hprov b hmb2) h1 h2
    exact hkeys a hma2 b hmb2 hp hn ho

/-- witness for C1_amended at the concrete two-object run. -/
theorem C1_amended_witness :
    (detectBroken exArgs exAis exCloud).Pairwise (fun a b => ctLess b a = false) :=
  (C1_amended exArgs exAis exCloud "aws" (by decide) (by decide)).2.1

/-- claim C9: every object appended to the broken list by detectBroken fails
the mainHasObject test, hence no broken object has mainSliceID == 0 together
with mainHasAny (the main target holding the full object); such objects are
skipped by the detector and never added. -/
theorem C9_broken_not_full_on_main (args : DetectArgs)
    (ais cloud : List (String × List (String × MergeObj))) :
    ∀ o ∈ detectBroken args ais cloud, ¬(o.mainSliceID = 0 ∧ o.mainHasAny = true) := by
  intro o ho hcontra
  have hpre : o ∈ brokenPreSort args ais cloud := by
    rw [detectBroken_eq_sortLe] at ho
    exact (perm_sortLe ctLe _).mem_iff.mp ho
  simp only [brokenPreSort, List.mem_flatMap, List.mem_filter] at hpre
  obtain ⟨pr, _, ⟨b, _, hb⟩⟩ := hpre
  simp only [detectOne, List.mem_filterMap] at hb
  obtain ⟨p, _, hp⟩ := hb
  rcases hcalc : calcLocalProps args.localDaemon args.smapSize args.hrwTargetListN
      args.isECCopyOf p.2 with _ | props
  · rw [hcalc] at hp
    exact Option.noConfusion hp
  · rw [hcalc] at hp
    cases hguard : ((props.mainSliceID == 0 || props.isECCopy) && props.mainHasAny) with
    | true => simp [hguard] at hp
    | false =>
      simp only [hguard, Bool.false_eq_true, if_false, Option.some.injEq] at hp
      subst hp
      simp [hcontra.1, hcontra.2] at hguard

/-- witness for C9 at the concrete run: the AIS-native object of the example
is in the broken list; its mainHasAny is false. -/
theorem C9_witness :
    ¬(({ bck := exBckA, objName := "o", objSize := 100, isECCopy := false,
         dataSlices := 1, paritySlices := 1, uid := uniqueWaitID exBckA "o",
         isMain := false, locCT := [("d1", exCT exBckA "d1")], hasCT := true,
         mainHasAny := false, mainSliceID := 0,
         fullObjFound := false : ObjProps }).mainSliceID = 0 ∧
      ({ bck := exBckA, objName := "o", objSize := 100, isECCopy := false,
         dataSlices := 1, paritySlices := 1, uid := uniqueWaitID exBckA "o",
         isMain := false, locCT := [("d1", exCT exBckA "d1")], hasCT := true,
         mainHasAny := false, mainSliceID := 0,
         fullObjFound := false : ObjProps }).mainHasAny = true) :=
  C9_broken_not_full_on_main exArgs exAis exCloud _ (by decide)

/-! ### Merging CT lists (globalCTList.addCT), claim C4 -/

/-- Result classification of globalCTList.addCT (the function returns error
values that callers log; state changes are what matters). -/
inductive AddCTRes
  | ok
  | errBucketInit
  | errHrw
  | dupDiscarded
  | dupReplaced
deriving DecidableEq, Repr

/-- External inputs of addCT: cluster.HrwTarget and cluster.HrwTargetList over
b.MakeUname (None = error), the smap size, and the b.Init outcome. -/
structure AddCTArgs where
  hrwTarget : Bck → String → Option String
  hrwTargetList : Bck → String → Nat → Option (List String)
  smapSize : Nat
  bckInitOk : Bck → Bool

/-- The in-place mutation of the surviving duplicate record when the newcomer
wins the HRW tiebreak: daemon ID, hrwFQN and realFQN are taken from the
newcomer; meta only if the survivor had none. -/
def updateFoundCT (found ct : RebCT) : RebCT :=
  { found with
    daemonID := ct.daemonID
    meta := if found.meta.isNone then ct.meta else found.meta
    hrwFQN := ct.hrwFQN
    realFQN := ct.realFQN }

/-- The tiebreak loop of addCT over the HRW target list: the first list entry
equal to the existing record's daemon yields false (newcomer discarded); the
first entry equal to the newcomer's daemon yields true (record replaced);
none if neither daemon occurs. -/
def hrwDupWinner : List String → String → String → Option Bool
  | [], _, _ => none
  | t :: rest, foundD, ctD =>
    if t == foundD then some false
    else if t == ctD then some true
    else hrwDupWinner rest foundD ctD

/-- Replace the first element satisfying p (the record the Go loop mutates). -/
def replaceFirst (p : RebCT → Bool) (g : RebCT → RebCT) : List RebCT → List RebCT
  | [] => []
  | x :: t => if p x then g x :: t else x :: replaceFirst p g t

/-- The duplicate-handling part of addCT on an existing object: non-zero slice
IDs are checked for uniqueness within the hash group; all other CTs are
appended. Note the HRW list is computed over obj.objName (which is "" for all
objects during merging, as calcLocalProps has not run yet). -/
def addCTToObj (args : AddCTArgs) (obj : MergeObj) (ct : RebCT) : MergeObj × AddCTRes :=
  let list := (assocGet ct.objHash obj.cts).getD []
  if ct.sliceID = 0 then
    ({ obj with cts := assocSet ct.objHash (list ++ [ct]) obj.cts }, AddCTRes.ok)
  else
    match list.find? (fun f => f.sliceID == ct.sliceID) with
    | none => ({ obj with cts := assocSet ct.objHash (list ++ [ct]) obj.cts }, AddCTRes.ok)
    | some found =>
      match args.hrwTargetList ct.bck obj.objName args.smapSize with
      | none => (obj, AddCTRes.errHrw)
      | some tgtList =>
        match hrwDupWinner tgtList found.daemonID ct.daemonID with
        | some false => (obj, AddCTRes.dupDiscarded)
        | some true =>
          ({ obj with
             cts := assocSet ct.objHash
               (replaceFirst (fun f => f.sliceID == ct.sliceID)
                 (fun f => updateFoundCT f ct) list) obj.cts },
           AddCTRes.dupReplaced)
        | none => (obj, AddCTRes.dupDiscarded)

/-- The global CT list (globalCTList): per-provider-class maps of bucket name
to objects. -/
structure GlobalCTList where
  ais : List (String × List (String × MergeObj))
  cloud : List (String × List (String × MergeObj))
deriving Repr

/-- The object map of the bucket the CT routes to (empty if the bucket is new). -/
def bckObjsOf (rr : GlobalCTList) (isCloud : Bool) (bname : String) :
    List (String × MergeObj) :=
  (assocGet bname (if isCloud then rr.cloud else rr.ais)).getD []

/-- Store the (possibly new) bucket's object map back; Go inserts an empty
rebBck for a new bucket before any validation, so every return path of addCT
goes through this. -/
def setBck (rr : GlobalCTList) (isCloud : Bool) (bname : String)
    (objs : List (String × MergeObj)) : GlobalCTList :=
  if isCloud then { rr with cloud := assocSet bname objs rr.cloud }
  else { rr with ais := assocSet bname objs rr.ais }

/-- globalCTList.addCT: route by provider class, create the bucket if missing,
validate the bucket, then either create the object (mainDaemon from HrwTarget,
objName left at its Go zero value "") or merge into the existing object. -/
def addCT (args : AddCTArgs) (rr : GlobalCTList) (ct : RebCT) : GlobalCTList × AddCTRes :=
  let isCloud := IsProviderCloud ct.bck
  let objs := bckObjsOf rr isCloud ct.bck.name
  if !(args.bckInitOk ct.bck) then
    (setBck rr isCloud ct.bck.name objs, AddCTRes.errBucketInit)
  else
    match assocGet ct.objName objs with
    | none =>
      match args.hrwTarget ct.bck ct.objName with
      | none => (setBck rr isCloud ct.bck.name objs, AddCTRes.errHrw)
      | some si =>
        let obj : MergeObj :=
          { cts := [(ct.objHash, [ct])], mainDaemon := si, bck := ct.bck, objName := "" }
        (setBck rr isCloud ct.bck.name (assocSet ct.objName obj objs), AddCTRes.ok)
    | some obj =>
      let r := addCTToObj args obj ct
      (setBck rr isCloud ct.bck.name (assocSet ct.objName r.1 objs), r.2)

/-- Every object stored anywhere in the global CT list. -/
def allObjs (rr : GlobalCTList) : List MergeObj :=
  (rr.ais ++ rr.cloud).flatMap (fun b => b.2.map Prod.snd)

/-- Position of the first occurrence of d (length of the list if absent). -/
def firstPos (d : String) : List String → Nat
  | [] => 0
  | t :: rest => if t == d then 0 else firstPos d rest + 1

theorem firstPos_le_length (d : String) : ∀ L : List String, firstPos d L ≤ L.length := by
  intro L
  induction L with
  | nil => simp [firstPos]
  | cons t rest ih =>
    simp only [firstPos, List.length_cons]
    by_cases h : t == d
    · simp [h]
    · simp [h]
      omega

theorem hrwDupWinner_of_le {d1 d2 : String} :
    ∀ L : List String, firstPos d1 L ≤ firstPos d2 L →
      hrwDupWinner L d1 d2 = some false ∨ hrwDupWinner L d1 d2 = none := by
  intro L
  induction L with
  | nil => intro _; simp [hrwDupWinner]
  | cons t rest ih =>
    intro h
    by_cases h1 : t == d1
    · simp [hrwDupWinner, h1]
    · by_cases h2 : t == d2
      · simp [firstPos, h1, h2] at h
      · simp only [firstPos, h1, h2, Bool.false_eq_true, if_false] at h
        simp only [hrwDupWinner, h1, h2, Bool.false_eq_true, if_false]
        exact ih (by omega)

theorem hrwDupWinner_none_not_mem {d1 d2 : String} :
    ∀ L : List String, hrwDupWinner L d1 d2 = none → firstPos d1 L = L.length := by
  intro L
  induction L with
  | nil => intro _; simp [firstPos]
  | cons t rest ih =>
    intro h
    by_cases h1 : t == d1
    · simp [hrwDupWinner, h1] at h
    · by_cases h2 : t == d2
      · simp [hrwDupWinner, h1, h2] at h
      · simp only [hrwDupWinner, h1, h2, Bool.false_eq_true, if_false] at h
        simp only [firstPos, h1, Bool.false_eq_true, if_false, List.length_cons]
        rw [ih h]

theorem hrwDupWinner_of_lt {d1 d2 : String} :
    ∀ L : List String, firstPos d2 L < firstPos d1 L →
      hrwDupWinner L d1 d2 = some true := by
  intro L
  induction L with
  | nil => intro h; simp [firstPos] at h
  | cons t rest ih =>
    intro h
    by_cases h1 : t == d1
    · simp [firstPos, h1] at h
    · by_cases h2 : t == d2
      · simp [hrwDupWinner, h1, h2]
      · simp only [firstPos, h1, h2, Bool.false_eq_true, if_false] at h
        simp only [hrwDupWinner, h1, h2, Bool.false_eq_true, if_false]
        exact ih (by omega)

theorem mem_assocSet {k : String} {v : α} {l : List (String × α)} {p : String × α}
    (h : p ∈ assocSet k v l) : p.2 = v ∨ p ∈ l := by
  unfold assocSet at h
  split at h
  · obtain ⟨q, hq, hpq⟩ := List.mem_map.mp h
    split at hpq
    · left; rw [← hpq]
    · right; rw [← hpq]; exact hq
  · rcases List.mem_append.mp h with hp | hp
    · right; exact hp
    · left; rw [List.mem_singleton.mp hp]

theorem mem_allObjs_setBck {rr : GlobalCTList} {isCloud : Bool} {bname : String}
    {objs : List (String × MergeObj)} {o : MergeObj}
    (h : o ∈ allObjs (setBck rr isCloud bname objs)) :
    (∃ p ∈ objs, p.2 = o) ∨ o ∈ allObjs rr := by
  unfold setBck at h
  cases isCloud with
  | false =>
    simp only [if_false, Bool.false_eq_true] at h
    simp only [allObjs, List.flatMap_append, List.mem_append, List.mem_flatMap,
      List.mem_map] at h ⊢
    rcases h with ⟨b, hb, o2, ho2, rfl⟩ | h
    · rcases mem_assocSet hb with hb2 | hb2
      · exact Or.inl ⟨o2, hb2 ▸ ho2, rfl⟩
      · exact Or.inr (Or.inl ⟨b, hb2, o2, ho2, rfl⟩)
    · exact Or.inr (Or.inr h)
  | true =>
    simp only [if_true] at h
    simp only [allObjs, List.flatMap_append, List.mem_append, List.mem_flatMap,
      List.mem_map] at h ⊢
    rcases h with h | ⟨b, hb, o2, ho2, rfl⟩
    · exact Or.inr (Or.inl h)
    · rcases mem_assocSet hb with hb2 | hb2
      · exact Or.inl ⟨o2, hb2 ▸ ho2, rfl⟩
      · exact Or.inr (Or.inr ⟨b, hb2, o2, ho2, rfl⟩)

theorem addCTToObj_objName (args : AddCTArgs) (obj : MergeObj) (ct : RebCT) :
    (addCTToObj args obj ct).1.objName = obj.objName := by
  simp only [addCTToObj]
  repeat first
  | rfl
  | split

/-- Objects keep their Go zero-value objName "" throughout the merge. -/
theorem addCT_objName_empty (args : AddCTArgs) (rr : GlobalCTList) (ct : RebCT)
    (hrr : ∀ o ∈ allObjs rr, o.objName = "") :
    ∀ o ∈ allObjs (addCT args rr ct).1, o.objName = "" := by
  intro o ho
  have hbobjs : ∀ q ∈ bckObjsOf rr (IsProviderCloud ct.bck) ct.bck.name,
      (q : String × MergeObj).2.objName = "" := by
    intro q hq
    apply hrr
    unfold bckObjsOf at hq
    rcases hg : assocGet ct.bck.name
        (if IsProviderCloud ct.bck then rr.cloud else rr.ais) with _ | objs
    · rw [hg] at hq
      simp at hq
    · rw [hg] at hq
      simp only [Option.getD_some] at hq
      unfold assocGet at hg
      rcases hf : (if IsProviderCloud ct.bck then rr.cloud else rr.ais).find?
          (fun p => p.1 == ct.bck.name) with _ | pr
      · rw [hf] at hg; simp at hg
      · rw [hf] at hg
        have hpr := List.mem_of_find?_eq_some hf
        have hsnd : pr.2 = objs := by simpa using hg
        subst hsnd
        simp only [allObjs, List.mem_flatMap, List.mem_map]
        by_cases hc : IsProviderCloud ct.bck
        · rw [if_pos hc] at hpr
          exact ⟨pr, by simp [hpr], q, hq, rfl⟩
        · rw [if_neg hc] at hpr
          exact ⟨pr, by simp [hpr], q, hq, rfl⟩
  unfold addCT at ho
  by_cases hinit : args.bckInitOk ct.bck
  · simp only [hinit, Bool.not_true, Bool.false_eq_true, if_false] at ho
    rcases hobj : assocGet ct.objName
        (bckObjsOf rr (IsProviderCloud ct.bck) ct.bck.name) with _ | obj
    · rw [hobj] at ho
      rcases hhrw : args.hrwTarget ct.bck ct.objName with _ | si
      · rw [hhrw] at ho
        rcases mem_allObjs_setBck ho with ⟨p, hp, rfl⟩ | h
        · exact hbobjs p hp
        · exact hrr o h
      · rw [hhrw] at ho
        rcases mem_allObjs_setBck ho with ⟨p, hp, rfl⟩ | h
        · rcases mem_assocSet hp with h2 | h2
          · rw [h2]
          · exact hbobjs p h2
        · exact hrr o h
    · rw [hobj] at ho
      rcases mem_allObjs_setBck ho with ⟨p, hp, rfl⟩ | h
      · rcases mem_assocSet hp with h2 | h2
        · rw [h2, addCTToObj_objName]
          apply hbobjs ⟨ct.objName, obj⟩
          unfold assocGet at hobj
          rcases hf : (bckObjsOf rr (IsProviderCloud ct.bck) ct.bck.name).find?
              (fun p => p.1 == ct.objName) with _ | pr
          · rw [hf] at hobj; simp at hobj
          · rw [hf] at hobj
            have hpr := List.mem_of_find?_eq_some hf
            have hk := List.find?_some hf
            have hsnd : pr.2 = obj := by simpa using hobj
            have hk2 : pr.1 = ct.objName := by simpa using hk
            rw [← hsnd, ← hk2]
            exact hpr
        · exact hbobjs p h2
      · exact hrr o h
  · simp only [hinit] at ho
    simp only [Bool.not_false, if_true] at ho
    rcases mem_allObjs_setBck ho with ⟨p, hp, rfl⟩ | h
    · exact hbobjs p hp
    · exact hrr o h

/-- Concrete addCT inputs: the HRW list for the empty object name is [B, A];
for the real object name "o" it is [A, B]. -/
def c4Args : AddCTArgs :=
  { hrwTarget := fun _ _ => some "A",
    hrwTargetList := fun _ n _ => if n == "" then some ["B", "A"] else some ["A", "B"],
    smapSize := 2,
    bckInitOk := fun _ => true }

/-- The existing (local) record: daemon A, slice 1, with local file paths. -/
def c4Found : RebCT :=
  { realFQN := "/a", hrwFQN := "/ha", meta := some 1, sgl := none,
    bck := exBckA, objName := "o", daemonID := "A", objHash := "h", objSize := 100,
    sliceID := 1, dataSlices := 1, paritySlices := 1 }

/-- The incoming (remote) record: daemon B, same slice 1, no local paths. -/
def c4New : RebCT := { c4Found with daemonID := "B", realFQN := "", hrwFQN := "", meta := none }

/-- The object holding the existing record (objName is "" at merge time). -/
def c4Obj : MergeObj :=
  { cts := [("h", [c4Found])], mainDaemon := "A", bck := exBckA, objName := "" }

/-- counterexample for claim C4: the HRW-ordered target list FOR THE OBJECT
(object name "o") is [A, B], so the claim predicts the kept record maps to A
and, with A local and discarded, predicts A's paths "/a" retained. The code
instead computes the HRW list over obj.objName — still "" during merging —
which is [B, A], so B wins: the kept record maps to B, and A's local paths are
overwritten by B's empty paths rather than retained. -/
theorem C4_counterexample :
    (addCTToObj c4Args c4Obj c4New).2 = AddCTRes.dupReplaced ∧
    (addCTToObj c4Args c4Obj c4New).1.cts =
      [("h", [{ c4Found with daemonID := "B", realFQN := "", hrwFQN := "" }])] ∧
    c4Args.hrwTargetList c4New.bck c4New.objName c4Args.smapSize = some ["A", "B"] ∧
    c4Obj.objName = "" := by
  refine ⟨?_, ?_, ?_, ?_⟩ <;> decide

/-- claim C4 (amended): when merging a CT with a non-zero slice ID that
collides with an existing record of the same slice ID, the winner is the one
of the two daemons appearing EARLIER in the HRW target list computed for the
bucket with the stored object name — which stays at its Go zero value "" for
every object created during merging, so it is a per-bucket list, not the HRW
list for the object. If the existing record's daemon is not later in that
list, the newcomer is discarded and nothing changes; if the newcomer's daemon
is strictly earlier, the colliding record is updated in place: it takes the
NEWCOMER's daemon ID, hrwFQN and realFQN (keeping its own meta when present),
so a discarded local record's file paths are overwritten, not retained. -/
theorem C4_amended (args : AddCTArgs) (obj : MergeObj) (ct found : RebCT) (L : List String)
    (hslice : ¬ct.sliceID = 0)
    (hfound : ((assocGet ct.objHash obj.cts).getD []).find?
      (fun f => f.sliceID == ct.sliceID) = some found)
    (hL : args.hrwTargetList ct.bck obj.objName args.smapSize = some L) :
    (firstPos found.daemonID L ≤ firstPos ct.daemonID L →
      addCTToObj args obj ct = (obj, AddCTRes.dupDiscarded)) ∧
    (firstPos ct.daemonID L < firstPos found.daemonID L →
      addCTToObj args obj ct =
        ({ obj with
           cts := assocSet ct.objHash
             (replaceFirst (fun f => f.sliceID == ct.sliceID)
               (fun f => updateFoundCT f ct) ((assocGet ct.objHash obj.cts).getD []))
             obj.cts },
         AddCTRes.dupReplaced)) ∧
    (updateFoundCT found ct).daemonID = ct.daemonID ∧
    (updateFoundCT found ct).realFQN = ct.realFQN ∧
    (updateFoundCT found ct).hrwFQN = ct.hrwFQN ∧
    (∀ args2 rr ct2, (∀ o ∈ allObjs rr, o.objName = "") →
      ∀ o ∈ allObjs (addCT args2 rr ct2).1, o.objName = "") := by
  refine ⟨?_, ?_, rfl, rfl, rfl, addCT_objName_empty⟩
  · intro hle
    rcases hrwDupWinner_of_le L hle with hw | hw <;>
      simp [addCTToObj, hslice, hfound, hL, hw]
  · intro hlt
    have hw := hrwDupWinner_of_lt L hlt
    simp [addCTToObj, hslice, hfound, hL, hw]

/-- witness for C4_amended at the concrete collision (the suffix of the claim:
the record update takes the newcomer's daemon and paths). -/
theorem C4_amended_witness :
    (updateFoundCT c4Found c4New).daemonID = c4New.daemonID ∧
    (updateFoundCT c4Found c4New).realFQN = c4New.realFQN := by
  have h := C4_amended c4Args c4Obj c4New c4Found ["B", "A"]
    (by decide) (by decide) (by decide)
  exact ⟨h.2.2.1, h.2.2.2.1⟩

/-! ### Receiving CTs and the rerequest sweep (claims C3, C5, C6, C10) -/

/-- The mutable receive state of one locCT record (rebCT.sgl as an Option
byte count, rebCT.meta as a marker) plus the sliceID receiveCT reads. -/
structure Slot where
  sliceID : Int
  sgl : Option Nat
  hasMeta : Bool
deriving DecidableEq, Repr

/-- The slice of rebObject state used by the receive path, the rerequest sweep
and updateRebuildInfo. -/
structure RObj where
  uid : String
  isMain : Bool
  isECCopy : Bool
  dataSlices : Int
  objSize : Int
  ready : Nat
  locCT : List (String × Slot)
deriving DecidableEq, Repr, Inhabited

/-- The engine state the receive path touches: the broken list, the current
batch index, the batch size, the checksum-error and receive counters, and the
abort flag. -/
structure RecvState where
  broken : List RObj
  currBatch : Nat
  batchSize : Nat
  errCksumCount : Nat
  rxCount : Nat
  aborted : Bool
deriving Repr

/-- Manager.objByUID: scan object indices in [currBatch, currBatch+batchSize*2)
(stopping at the end of the broken list) for the first object with the wanted
uid. -/
def objByUID (broken : List RObj) (currBatch batchSize : Nat) (uid : String) : Option Nat :=
  (List.range' currBatch (batchSize * 2)).find? (fun i =>
    decide (i < broken.length) && ((broken.getD i default).uid == uid))

/-- An inbound EC fragment: transport header fields, unpacked push request
fields, and the outcome of the external steps (payload byte count, XXHash
computed over the received payload, copy/save/ack call results). -/
structure Frag where
  daemonID : String
  sliceID : Int
  bck : Bck
  objName : String
  hdrCksumValue : String
  payloadSize : Nat
  payloadCksum : String
  copyOk : Bool
  partialSize : Nat
  saveOk : Bool
deriving Repr

/-- The error results receiveCT can return (callers log them). -/
inductive RecvErr
  | badCksum
  | readFail
  | saveFail
  | assertFail
deriving DecidableEq, Repr

/-- Count of slots holding received payload (sgl non-nil and of nonzero size),
as counted by updateRebuildInfo. -/
def recvCount (obj : RObj) : Nat :=
  obj.locCT.countP (fun p => p.2.sgl.getD 0 != 0)

/-- The atomic compare-and-swap on rebObject.ready. -/
def casReady (obj : RObj) (old new : Nat) : RObj :=
  if obj.ready = old then { obj with ready := new } else obj

/-- Manager.updateRebuildInfo: return immediately unless Waiting; a non-main
target needs one received slot (Done); a main target of a replicated object
needs one (Received); a main target of an EC object needs dataSlices received
slots, switching Waiting to Received by CAS. -/
def updateRebuildInfo (obj : RObj) : RObj :=
  if obj.ready ≠ objWaiting then obj
  else
    let cnt := recvCount obj
    if cnt ≠ 0 ∧ ¬obj.isMain then { obj with ready := objDone }
    else if obj.isMain ∧ obj.isECCopy ∧ cnt ≠ 0 then { obj with ready := objReceived }
    else if (cnt : Int) ≥ obj.dataSlices then casReady obj objWaiting objReceived
    else obj

/-- Manager.receiveCT. The early paths: unknown uid (logged, dropped, nil);
missing locCT record (assert when sliceID is 0, else save to disk); slot
already filled or object no longer Waiting (drain, nil). The main path copies
the payload into the slot's SGL, counts the receive, verifies the checksum
when the header carries one (counting and returning a bad-checksum error on
mismatch, with the payload left attached to the slot), then either persists
(full object or non-main slice; ready stored as Done first) or updates the
rebuild info, and finally ACKs. -/
def receiveCT (st : RecvState) (f : Frag) : RecvState × Option RecvErr :=
  let uid := uniqueWaitID f.bck f.objName
  match objByUID st.broken st.currBatch st.batchSize uid with
  | none => (st, none)
  | some i =>
    let obj := st.broken.getD i default
    match assocGet f.daemonID obj.locCT with
    | none =>
      if f.sliceID = 0 then (st, some RecvErr.assertFail)
      else if f.saveOk then (st, none)
      else if obj.isMain then ({ st with aborted := true }, some RecvErr.saveFail)
      else (st, none)
    | some ct =>
      if ct.sgl.isSome || obj.ready != objWaiting then (st, none)
      else
        let ct2 : Slot := { ct with
          sgl := some (if f.copyOk then f.payloadSize else f.partialSize)
          hasMeta := true }
        let obj2 := { obj with locCT := assocSet f.daemonID ct2 obj.locCT }
        let st2 := { st with broken := st.broken.set i obj2 }
        if !f.copyOk then (st2, some RecvErr.readFail)
        else
          let st3 := { st2 with rxCount := st2.rxCount + 1 }
          if f.hdrCksumValue != "" && f.hdrCksumValue != f.payloadCksum then
            ({ st3 with errCksumCount := st3.errCksumCount + 1 }, some RecvErr.badCksum)
          else
            let saveToDisk := ct.sliceID = 0 || !obj.isMain
            if saveToDisk then
              let obj3 := { obj2 with ready := objDone }
              let st4 := { st3 with broken := st3.broken.set i obj3 }
              if f.saveOk then (st4, none)
              else if obj.isMain then ({ st4 with aborted := true }, some RecvErr.saveFail)
              else (st4, none)
            else
              let obj3 := updateRebuildInfo obj2
              ({ st3 with broken := st3.broken.set i obj3 }, none)

/-- The outcome of one getCT call of the rerequest sweep: whether all HTTP
steps succeeded, and how many payload bytes were copied into the SGL. -/
structure FetchResult where
  ok : Bool
  bytes : Nat

/-- The effect of the fetch phase of rerequestObj: every slot without an SGL
gets one allocated and filled with the fetch outcome for its daemon; meta is
set only on success. -/
def applyFetch (fetch : String → FetchResult) (obj : RObj) : RObj :=
  { obj with locCT := obj.locCT.map (fun p =>
      if p.2.sgl.isNone then
        (p.1, { p.2 with
          sgl := some (fetch p.1).bytes
          hasMeta := p.2.hasMeta || (fetch p.1).ok })
      else p) }

/-- Manager.rerequestObj: skip Done objects; collect the slots with no SGL and
return nil when there are none; otherwise fetch all of them, update the
rebuild info, and return the insufficient-slices error if the object is still
Waiting. The returned Bool is true iff the error is returned. -/
def rerequestObj (fetch : String → FetchResult) (obj : RObj) : RObj × Bool :=
  if obj.ready = objDone then (obj, false)
  else if (obj.locCT.filter (fun p => p.2.sgl.isNone)).isEmpty then (obj, false)
  else
    let obj2 := updateRebuildInfo (applyFetch fetch obj)
    (obj2, obj2.ready = objWaiting)

/-- The index loop of Manager.rerequest over a batch: process each index while
it is within the broken list, write the object back, and on an error abort the
rebalance (returned Bool) and stop. -/
def rerequestGo (fetch : String → String → FetchResult) :
    List Nat → List RObj → List RObj × Bool
  | [], broken => (broken, false)
  | i :: rest, broken =>
    if i < broken.length then
      let obj := broken.getD i default
      let r := rerequestObj (fetch obj.uid) obj
      let broken2 := broken.set i r.1
      if r.2 then (broken2, true)
      else rerequestGo fetch rest broken2
    else (broken, false)

/-- Manager.rerequest: sweep the current batch window. -/
def rerequest (fetch : String → String → FetchResult) (broken : List RObj)
    (start bs : Nat) : List RObj × Bool :=
  rerequestGo fetch (List.range' start bs) broken

theorem getD_set_self {l : List α} {i : Nat} {v d : α} [Inhabited α] (h : i < l.length) :
    (l.set i v).getD i d = v := by
  simp [List.getD_eq_getElem?_getD, List.getElem?_set, h]

theorem getD_set_ne {l : List α} {i j : Nat} {v d : α} [Inhabited α] (h : ¬i = j) :
    (l.set i v).getD j d = l.getD j d := by
  simp [List.getD_eq_getElem?_getD, List.getElem?_set, h]

/-- A pair stored under key k after assocSet k v carries the value v. -/
theorem mem_assocSet_key {k : String} {v : α} {l : List (String × α)} {p : String × α}
    (h : p ∈ assocSet k v l) (hk : p.1 = k) : p.2 = v := by
  unfold assocSet at h
  split at h
  · obtain ⟨q, hq, hpq⟩ := List.mem_map.mp h
    split at hpq
    · rw [← hpq]
    · exfalso
      rename_i hqk
      apply hqk
      have : q.1 = p.1 := by rw [← hpq]
      rw [this, hk]
      exact beq_self_eq_true k
  · rename_i hany
    rcases List.mem_append.mp h with hp | hp
    · exfalso
      have := List.any_eq_false.mp (Bool.of_not_eq_true hany) p hp
      simp [hk] at this
    · rw [List.mem_singleton.mp hp]

/-- The bounds and the uid match of a successful objByUID lookup. -/
theorem objByUID_bounds {broken : List RObj} {cb bs : Nat} {uid : String} {i : Nat}
    (h : objByUID broken cb bs uid = some i) :
    cb ≤ i ∧ i < cb + bs * 2 ∧ i < broken.length ∧ (broken.getD i default).uid = uid := by
  unfold objByUID at h
  have hm := List.mem_of_find?_eq_some h
  have hp := List.find?_some h
  rw [List.mem_range'_1] at hm
  simp only [Bool.and_eq_true, decide_eq_true_eq, beq_iff_eq] at hp
  exact ⟨hm.1, hm.2, hp.1, hp.2⟩

/-- claim C5: the receiver resolves the owning object by uid only among broken
list entries with index in [currBatch, currBatch + 2*batchSize); when no entry
in that window (intersected with the list bounds) carries the uid, receiveCT
returns nil and the whole engine state is unchanged. -/
theorem C5_receive_window (st : RecvState) (f : Frag) :
    (∀ i : Nat,
      objByUID st.broken st.currBatch st.batchSize (uniqueWaitID f.bck f.objName) = some i →
      st.currBatch ≤ i ∧ i < st.currBatch + st.batchSize * 2 ∧ i < st.broken.length ∧
        (st.broken.getD i default).uid = uniqueWaitID f.bck f.objName) ∧
    ((∀ i : Nat, st.currBatch ≤ i → i < st.currBatch + st.batchSize * 2 →
        i < st.broken.length →
        ¬(st.broken.getD i default).uid = uniqueWaitID f.bck f.objName) →
      receiveCT st f = (st, none)) := by
  constructor
  · intro i h
    exact objByUID_bounds h
  · intro h
    have hnone : objByUID st.broken st.currBatch st.batchSize
        (uniqueWaitID f.bck f.objName) = none := by
      unfold objByUID
      rw [List.find?_eq_none]
      intro x hx
      rw [List.mem_range'_1] at hx
      by_cases hlen : x < st.broken.length
      · simp only [Bool.and_eq_true, decide_eq_true_eq, beq_iff_eq, not_and]
        intro _
        exact h x hx.1 hx.2 hlen
      · simp [hlen]
    simp only [receiveCT, hnone]

/-- witness object for the receive-path claims. -/
def c3Obj : RObj :=
  { uid := "ais//b/o", isMain := true, isECCopy := false, dataSlices := 2,
    objSize := 100, ready := objWaiting,
    locCT := [("d2", { sliceID := 1, sgl := none, hasMeta := false }),
              ("d3", { sliceID := 2, sgl := none, hasMeta := false })] }

/-- witness engine state for the receive-path claims. -/
def c3St : RecvState :=
  { broken := [c3Obj], currBatch := 0, batchSize := 8,
    errCksumCount := 0, rxCount := 0, aborted := false }

/-- an inbound fragment from d2 whose header checksum does not match the
XXHash of the received payload. -/
def c3Frag : Frag :=
  { daemonID := "d2", sliceID := 1, bck := exBckA, objName := "o",
    hdrCksumValue := "aaaa", payloadSize := 5, payloadCksum := "bbbb",
    copyOk := true, partialSize := 0, saveOk := true }

/-- witness fragment for C5: an object name no broken-list entry carries. -/
def c5Frag : Frag :=
  { daemonID := "d2", sliceID := 1, bck := exBckA, objName := "zzz",
    hdrCksumValue := "", payloadSize := 5, payloadCksum := "x",
    copyOk := true, partialSize := 0, saveOk := true }

/-- witness for C5: a fragment with an unknown uid is dropped with no state
change and a nil result. -/
theorem C5_receive_window_witness : receiveCT c3St c5Frag = (c3St, none) :=
  (C5_receive_window c3St c5Frag).2 (by decide)

/-- counterexample for claim C3: after a checksum-mismatched receive the
payload is NOT discarded — the slot keeps its filled SGL (5 bytes), counts as
received by updateRebuildInfo (recvCount 1), and the rerequest sweep's
to-request set does not contain the sender d2, so the slice is never fetched
again (the claim says the slot is treated as not received and re-fetched). -/
theorem C3_counterexample :
    (receiveCT c3St c3Frag).2 = some RecvErr.badCksum ∧
    (receiveCT c3St c3Frag).1.errCksumCount = 1 ∧
    assocGet "d2" (((receiveCT c3St c3Frag).1.broken.getD 0 default).locCT) =
      some { sliceID := 1, sgl := some 5, hasMeta := true } ∧
    recvCount ((receiveCT c3St c3Frag).1.broken.getD 0 default) = 1 ∧
    ((((receiveCT c3St c3Frag).1.broken.getD 0 default).locCT.filter
        (fun p => p.2.sgl.isNone)).map Prod.fst) = ["d3"] := by
  refine ⟨?_, ?_, ?_, ?_, ?_⟩ <;> decide

/-- claim C3 (amended): on a received fragment whose header checksum differs
from the XXHash of the received payload, the receiver increments the
checksum-error counter and returns a bad-checksum error without aborting the
rebalance; however the received payload stays attached to the slot (the SGL is
not freed), so the slot counts as received and the rerequest sweep does NOT
fetch that slice again (its to-request set excludes the sender). -/
theorem C3_amended (st : RecvState) (f : Frag) (i : Nat) (ct : Slot)
    (h1 : objByUID st.broken st.currBatch st.batchSize (uniqueWaitID f.bck f.objName) = some i)
    (h2 : assocGet f.daemonID (st.broken.getD i default).locCT = some ct)
    (h3 : ct.sgl = none)
    (h4 : (st.broken.getD i default).ready = objWaiting)
    (h5 : f.copyOk = true)
    (h6 : ¬f.hdrCksumValue = "")
    (h7 : ¬f.hdrCksumValue = f.payloadCksum) :
    receiveCT st f =
      ({ st with
         broken := st.broken.set i
           { st.broken.getD i default with
             locCT := assocSet f.daemonID
               { ct with sgl := some f.payloadSize, hasMeta := true }
               (st.broken.getD i default).locCT }
         rxCount := st.rxCount + 1
         errCksumCount := st.errCksumCount + 1 },
       some RecvErr.badCksum) ∧
    (receiveCT st f).1.aborted = st.aborted ∧
    f.daemonID ∉ ((((receiveCT st f).1.broken.getD i default).locCT.filter
      (fun p => p.2.sgl.isNone)).map Prod.fst) := by
  have hilen : i < st.broken.length := (objByUID_bounds h1).2.2.1
  have hmain : receiveCT st f =
      ({ st with
         broken := st.broken.set i
           { st.broken.getD i default with
             locCT := assocSet f.daemonID
               { ct with sgl := some f.payloadSize, hasMeta := true }
               (st.broken.getD i default).locCT }
         rxCount := st.rxCount + 1
         errCksumCount := st.errCksumCount + 1 },
       some RecvErr.badCksum) := by
    have hcmp : (f.hdrCksumValue != "" && f.hdrCksumValue != f.payloadCksum) = true := by
      simp [bne_iff_ne, h6, h7]
    simp only [receiveCT, h1, h2, h3, h5, hcmp, h4, Option.isSome_none, Bool.false_or,
      bne_self_eq_false, Bool.not_true, Bool.false_eq_true, if_false, if_true]
  refine ⟨hmain, by rw [hmain], ?_⟩
  rw [hmain]
  simp only [List.mem_map]
  rintro ⟨p, hp, hpd⟩
  have hpf := List.mem_filter.mp hp
  have hget : ((st.broken.set i
      { st.broken.getD i default with
        locCT := assocSet f.daemonID
          { ct with sgl := some f.payloadSize, hasMeta := true }
          (st.broken.getD i default).locCT }).getD i default) =
      { st.broken.getD i default with
        locCT := assocSet f.daemonID
          { ct with sgl := some f.payloadSize, hasMeta := true }
          (st.broken.getD i default).locCT } := getD_set_self hilen
  rw [hget] at hpf
  have hval := mem_assocSet_key hpf.1 hpd
  rw [hval] at hpf
  simp at hpf

/-- witness for C3_amended at the concrete mismatched receive. -/
theorem C3_amended_witness :
    (receiveCT c3St c3Frag).1.aborted = c3St.aborted ∧
    "d2" ∉ ((((receiveCT c3St c3Frag).1.broken.getD 0 default).locCT.filter
      (fun p => p.2.sgl.isNone)).map Prod.fst) := by
  have h := C3_amended c3St c3Frag 0 { sliceID := 1, sgl := none, hasMeta := false }
    (by decide) (by decide) (by decide) (by decide) (by decide) (by decide) (by decide)
  exact ⟨h.2.1, h.2.2⟩

theorem applyFetch_ready (fetch : String → FetchResult) (obj : RObj) :
    (applyFetch fetch obj).ready = obj.ready := rfl

theorem applyFetch_isMain (fetch : String → FetchResult) (obj : RObj) :
    (applyFetch fetch obj).isMain = obj.isMain := rfl

/-- updateRebuildInfo moves a Waiting main object with at least dataSlices
received slots to Received. -/
theorem updateRebuildInfo_received {obj : RObj} (hw : obj.ready = objWaiting)
    (hm : obj.isMain = true) (hcnt : (recvCount obj : Int) ≥ obj.dataSlices) :
    (updateRebuildInfo obj).ready = objReceived := by
  unfold updateRebuildInfo
  rw [if_neg (by simp [hw])]
  by_cases h1 : recvCount obj ≠ 0 ∧ ¬obj.isMain = true
  · exact absurd h1.2 (by simp [hm])
  · rw [if_neg h1]
    by_cases h2 : obj.isMain = true ∧ obj.isECCopy = true ∧ recvCount obj ≠ 0
    · simp [h2]
    · rw [if_neg h2, if_pos hcnt]
      unfold casReady
      rw [if_pos hw]

theorem length_rerequestGo (fetch : String → String → FetchResult) :
    ∀ (idxs : List Nat) (broken : List RObj),
      (rerequestGo fetch idxs broken).1.length = broken.length := by
  intro idxs
  induction idxs with
  | nil => intro broken; rfl
  | cons j rest ih =>
    intro broken
    unfold rerequestGo
    split
    · dsimp only
      split
      · simp [List.length_set]
      · rw [ih]
        exact List.length_set broken j _
    · rfl

theorem rerequestGo_getD_not_mem (fetch : String → String → FetchResult) :
    ∀ (idxs : List Nat) (broken : List RObj) (i : Nat), i ∉ idxs →
      (rerequestGo fetch idxs broken).1.getD i default = broken.getD i default := by
  intro idxs
  induction idxs with
  | nil => intro broken i _; rfl
  | cons j rest ih =>
    intro broken i hmem
    have hij : ¬j = i := fun h => hmem (by simp [h])
    have hrest : i ∉ rest := fun h => hmem (by simp [h])
    unfold rerequestGo
    split
    · dsimp only
      split
      · exact getD_set_ne hij
      · rw [ih _ i hrest]
        exact getD_set_ne hij
    · rfl

/-- The rerequest sweep never leaves an in-window object Waiting without
aborting, except when the sweep had nothing to request for it. -/
theorem rerequest_no_abort (fetch2 : String → String → FetchResult) :
    ∀ (bs start : Nat) (broken : List RObj),
      (rerequest fetch2 broken start bs).2 = false →
      ∀ i, start ≤ i → i < start + bs → i < broken.length →
        ((rerequest fetch2 broken start bs).1.getD i default).ready ≠ objWaiting ∨
        ((broken.getD i default).locCT.filter (fun p => p.2.sgl.isNone)).isEmpty = true := by
  intro bs
  induction bs with
  | zero => intro start broken _ i h1 h2 _; omega
  | succ n ih =>
    intro start broken h i h1 h2 h3
    unfold rerequest at h ⊢
    rw [List.range'_succ] at h ⊢
    unfold rerequestGo at h ⊢
    by_cases hlen : start < broken.length
    · rw [if_pos hlen] at h ⊢
      by_cases herr : (rerequestObj (fetch2 (broken.getD start default).uid)
          (broken.getD start default)).2 = true
      · rw [if_pos herr] at h
        simp at h
      · rw [if_neg herr] at h ⊢
        by_cases hi : i = start
        · subst hi
          have hnm : i ∉ List.range' (i + 1) n := by
            intro hmem
            rw [List.mem_range'_1] at hmem
            omega
          have hfin : (rerequestGo fetch2 (List.range' (i + 1) n)
              (broken.set i (rerequestObj (fetch2 (broken.getD i default).uid)
                (broken.getD i default)).1)).1.getD i default =
              (rerequestObj (fetch2 (broken.getD i default).uid)
                (broken.getD i default)).1 := by
            rw [rerequestGo_getD_not_mem fetch2 _ _ i hnm]
            exact getD_set_self hlen
          by_cases hdone : (broken.getD i default).ready = objDone
          · left
            have : (rerequestObj (fetch2 (broken.getD i default).uid)
                (broken.getD i default)).1 = broken.getD i default := by
              unfold rerequestObj
              rw [if_pos hdone]
            rw [hfin, this, hdone]
            simp [objDone, objWaiting]
          · by_cases hempt : ((broken.getD i default).locCT.filter
                (fun p => p.2.sgl.isNone)).isEmpty = true
            · right
              exact hempt
            · left
              have hr : rerequestObj (fetch2 (broken.getD i default).uid)
                  (broken.getD i default) =
                  (updateRebuildInfo (applyFetch (fetch2 (broken.getD i default).uid)
                    (broken.getD i default)),
                   decide ((updateRebuildInfo (applyFetch (fetch2 (broken.getD i default).uid)
                    (broken.getD i default))).ready = objWaiting)) := by
                unfold rerequestObj
                rw [if_neg hdone, if_neg hempt]
              rw [hr] at herr
              rw [hfin, hr]
              simpa using herr
        · have hge : start + 1 ≤ i := by omega
          have hlen2 : i < (broken.set start (rerequestObj
              (fetch2 (broken.getD start default).uid) (broken.getD start default)).1).length := by
            rw [List.length_set]; exact h3
          have := ih (start + 1) _ h i hge (by omega) hlen2
          rcases this with hl | hr
          · exact Or.inl hl
          · right
            rw [getD_set_ne (fun hc => hi hc.symm)] at hr
            exact hr
    · rw [if_neg hlen] at h
      omega

/-- claim C6: for an object the rerequest sweep updates (it was Waiting and
had at least one slot with no payload to request): if the local target is main
and at least dataSlices of the tracked slots hold received payload after the
fetches, the ready state moves from Waiting to Received (realized by the
compare-and-swap in updateRebuildInfo); the sweep returns the
insufficient-slices error exactly when the object is still Waiting afterwards;
and the batch loop aborts the whole rebalance on that error — a batch sweep
that returns without aborting left no updated object Waiting. -/
theorem C6_rerequest_rebuild (fetch : String → FetchResult) (obj : RObj)
    (hwait : obj.ready = objWaiting)
    (hupd : ¬(obj.locCT.filter (fun p => p.2.sgl.isNone)).isEmpty = true) :
    (obj.isMain = true →
      (recvCount (applyFetch fetch obj) : Int) ≥ obj.dataSlices →
      (rerequestObj fetch obj).1.ready = objReceived ∧ (rerequestObj fetch obj).2 = false) ∧
    ((rerequestObj fetch obj).2 = true ↔ (rerequestObj fetch obj).1.ready = objWaiting) ∧
    (∀ (fetch2 : String → String → FetchResult) (bs start : Nat) (broken : List RObj),
      (rerequest fetch2 broken start bs).2 = false →
      ∀ i, start ≤ i → i < start + bs → i < broken.length →
        ((rerequest fetch2 broken start bs).1.getD i default).ready ≠ objWaiting ∨
        ((broken.getD i default).locCT.filter (fun p => p.2.sgl.isNone)).isEmpty = true) := by
  have hnd : ¬obj.ready = objDone := by rw [hwait]; decide
  have hr : rerequestObj fetch obj =
      (updateRebuildInfo (applyFetch fetch obj),
       decide ((updateRebuildInfo (applyFetch fetch obj)).ready = objWaiting)) := by
    unfold rerequestObj
    rw [if_neg hnd, if_neg hupd]
  refine ⟨?_, ?_, fun fetch2 bs start broken => rerequest_no_abort fetch2 bs start broken⟩
  · intro hm hcnt
    have hrecv : (updateRebuildInfo (applyFetch fetch obj)).ready = objReceived :=
      updateRebuildInfo_received (by rw [applyFetch_ready]; exact hwait)
        (by rw [applyFetch_isMain]; exact hm) hcnt
    rw [hr]
    refine ⟨hrecv, ?_⟩
    simp [hrecv, objReceived, objWaiting]
  · rw [hr]
    simp

/-- fetch oracle for the C6 witness: every fetch succeeds with 7 bytes. -/
def c6Fetch : String → FetchResult := fun _ => { ok := true, bytes := 7 }

/-- witness for C6: the main object with both slices fetched becomes Received
with no error. -/
theorem C6_rerequest_rebuild_witness :
    (rerequestObj c6Fetch c3Obj).1.ready = objReceived ∧
    (rerequestObj c6Fetch c3Obj).2 = false :=
  (C6_rerequest_rebuild c6Fetch c3Obj (by decide) (by decide)).1 (by decide) (by decide)

/-! ### The namespace exchange (Manager.exchange), claim C2 -/

/-- Go copy(dst, src): overwrite the prefix of dst with src; dst keeps its
length (the crux of the retry-set bug: sendTo is never truncated to the
failed set). -/
def goCopy (dst src : List α) : List α :=
  let n := min dst.length src.length
  src.take n ++ dst.drop n

/-- The retry loop of Manager.exchange with the constant retries = 3, fuel on
the remaining rounds. ok round peer is the outcome of streams.Send for that
peer in that round. Returns the per-round recipient lists (in send order) and
true iff a round completed with no failure (stage advanced to ECDetect); false
means the error "could not send data to %d nodes" was returned after the last
round. Each round recomputes failed from scratch (failed = failed[:0]) and, on
failure, sleeps and does copy(sendTo, failed) before the next round. -/
def exchangeRounds (ok : Nat → String → Bool) : Nat → Nat → List String →
    List (List String) × Bool
  | 0, _, _ => ([], false)
  | n + 1, i, sendTo =>
    let failed := sendTo.filter (fun p => !(ok i p))
    if failed.isEmpty then ([sendTo], true)
    else
      let r := exchangeRounds ok n (i + 1) (goCopy sendTo failed)
      (sendTo :: r.1, r.2)

/-- Manager.exchange: the peers are every target except the local one; then
the 3-round retry loop. -/
def exchange (ok : Nat → String → Bool) (tmap : List String) (self : String) :
    List (List String) × Bool :=
  exchangeRounds ok 3 0 (tmap.filter (fun n => n != self))

/-- The send outcome of the C2 failing input: in round 0 the send to C fails;
every other send succeeds. -/
def c2Ok : Nat → String → Bool := fun r p => !(r == 0 && p == "C")

/-- claim C2 evidence (code bug): with peers [A, B, C] and only C failing in
round 1, round 2 re-sends to C, to B and to C again — copy(sendTo, failed)
overwrites only the prefix of sendTo and never shrinks it, so the retry round
re-attempts peers beyond the failed set, although only C (the round-1 failed
set) should be re-attempted. The exchange still ends successfully here. -/
theorem C2_retry_resends_acked_peer :
    exchange c2Ok ["t0", "A", "B", "C"] "t0" =
      ([["A", "B", "C"], ["C", "B", "C"]], true) ∧
    ["A", "B", "C"].filter (fun p => !(c2Ok 0 p)) = ["C"] ∧
    c2Ok 0 "B" = true ∧
    "B" ∈ [["A", "B", "C"], ["C", "B", "C"]].getD 1 [] := by
  refine ⟨?_, ?_, ?_, ?_⟩ <;> decide

/-! ### Monotonicity of the per-object ready state, claim C10 -/

/-- Every write the source performs on rebObject.ready, by site:
storeDone covers receiveCT (obj.ready.Store(objDone) before saving),
rebuildReceived, restoreReplica and rebalanceObject (all Store(objDone)) and
the first branch of updateRebuildInfo; update covers a full updateRebuildInfo
call on an object in the given configuration. No site stores objWaiting. -/
inductive ReadyWrite
  | storeDone
  | update (isMain isECCopy : Bool) (cnt : Nat) (dataSlices : Int)

/-- The new ready value after a write, mirroring the guards of
updateRebuildInfo (immediate return unless Waiting; CAS for Waiting to
Received). -/
def applyReadyWrite : ReadyWrite → Nat → Nat
  | ReadyWrite.storeDone, _ => objDone
  | ReadyWrite.update isMain isECCopy cnt dataSlices, r =>
    if r ≠ objWaiting then r
    else if cnt ≠ 0 ∧ ¬isMain = true then objDone
    else if isMain = true ∧ isECCopy = true ∧ cnt ≠ 0 then objReceived
    else if (cnt : Int) ≥ dataSlices then (if r = objWaiting then objReceived else r)
    else r

/-- updateRebuildInfo on an object is an applyReadyWrite on its ready state
(the embeddings agree), so the per-site enumeration covers it. -/
theorem updateRebuildInfo_is_readyWrite (obj : RObj) :
    (updateRebuildInfo obj).ready =
      applyReadyWrite (ReadyWrite.update obj.isMain obj.isECCopy (recvCount obj)
        obj.dataSlices) obj.ready := by
  simp only [updateRebuildInfo, applyReadyWrite, casReady]
  by_cases h0 : obj.ready ≠ objWaiting
  · rw [if_pos h0, if_pos h0]
  · rw [if_neg h0, if_neg h0]
    by_cases h1 : recvCount obj ≠ 0 ∧ ¬obj.isMain = true
    · rw [if_pos h1, if_pos h1]
    · rw [if_neg h1, if_neg h1]
      by_cases h2 : obj.isMain = true ∧ obj.isECCopy = true ∧ recvCount obj ≠ 0
      · rw [if_pos h2, if_pos h2]
      · rw [if_neg h2, if_neg h2]
        by_cases h3 : (recvCount obj : Int) ≥ obj.dataSlices
        · rw [if_pos h3, if_pos h3]
          by_cases h4 : obj.ready = objWaiting
          · rw [if_pos h4, if_pos h4]
          · rw [if_neg h4, if_neg h4]
        · rw [if_neg h3, if_neg h3]

/-- claim C10: every ready write moves the state forward along
Waiting(0) -> Received(1) -> Done(2) and never back: the result is never
smaller, a write never produces Waiting from a non-Waiting state, and an
update write leaves any non-Waiting state untouched (updateRebuildInfo returns
immediately when the state is not Waiting). -/
theorem C10_ready_monotone (w : ReadyWrite) (r : Nat) (hr : r ≤ objDone) :
    r ≤ applyReadyWrite w r ∧
    (applyReadyWrite w r = objWaiting → r = objWaiting) ∧
    (∀ isMain isECCopy cnt dataSlices, ¬r = objWaiting →
      applyReadyWrite (ReadyWrite.update isMain isECCopy cnt dataSlices) r = r) := by
  have hupd : ∀ (isMain isECCopy : Bool) (cnt : Nat) (dataSlices : Int), ¬r = objWaiting →
      applyReadyWrite (ReadyWrite.update isMain isECCopy cnt dataSlices) r = r := by
    intro a b c d h
    simp only [applyReadyWrite]
    rw [if_pos h]
  refine ⟨?_, ?_, hupd⟩
  · cases w with
    | storeDone => simpa [applyReadyWrite, objDone] using hr
    | update isMain isECCopy cnt dataSlices =>
      by_cases h : r = objWaiting
      · rw [h]
        exact Nat.zero_le _
      · rw [hupd _ _ _ _ h]
  · cases w with
    | storeDone =>
      intro h
      simp [applyReadyWrite, objDone, objWaiting] at h
    | update isMain isECCopy cnt dataSlices =>
      intro h
      by_cases hw : r = objWaiting
      · exact hw
      · rw [hupd _ _ _ _ hw] at h
        exact h

/-- witness for C10 at the Received state: no write moves it back. -/
theorem C10_ready_monotone_witness :
    objReceived ≤ applyReadyWrite ReadyWrite.storeDone objReceived ∧
    (applyReadyWrite ReadyWrite.storeDone objReceived = objWaiting →
      objReceived = objWaiting) :=
  ⟨(C10_ready_monotone ReadyWrite.storeDone objReceived (by decide)).1,
   (C10_ready_monotone ReadyWrite.storeDone objReceived (by decide)).2.1⟩

/-! ### The vanilla-rebalance retransmission sweep (rebManager.retransmit),
claim C8 -/

/-- One pending entry of the sharded LomAck table, together with the outcomes
of the local checks the sweep performs on it: lom.Load (loadOk) and
lom.Exists (lomExists). -/
structure AckEntry where
  uname : String
  bucket : String
  objname : String
  loadOk : Bool
  lomExists : Bool
deriving DecidableEq, Repr

/-- External inputs of retransmit: the HRW destination of an object, the HEAD
probe outcome (true = res.err == nil: the destination has the object) and the
resend outcome. -/
structure RetransArgs where
  hrw : String → String → String
  headOk : String → String → String → Bool
  sendOk : String → String → String → Bool

/-- The sweep's accumulated effects on one shard: the entries remaining in the
shard's queue, the HEAD probes issued (entry, destination), the resends
attempted (entry, destination), and the count of successful resends. -/
structure RetransAcc where
  q : List AckEntry
  heads : List (AckEntry × String)
  resends : List (AckEntry × String)
  cnt : Nat
deriving Repr

/-- The per-entry body of the retransmit loop: entries that fail to load or no
longer exist locally are deleted with NO HEAD issued; otherwise a HEAD goes to
the entry's current HRW target; success deletes the entry without resending;
failure re-sends the object to that target (counting successful sends) and
keeps the entry pending. -/
def retransmitStep (args : RetransArgs) (acc : RetransAcc) (e : AckEntry) : RetransAcc :=
  if !e.loadOk then acc
  else if !e.lomExists then acc
  else
    let tsi := args.hrw e.bucket e.objname
    let acc2 := { acc with heads := acc.heads ++ [(e, tsi)] }
    if args.headOk tsi e.bucket e.objname then acc2
    else
      let acc3 := { acc2 with q := acc2.q ++ [e], resends := acc2.resends ++ [(e, tsi)] }
      if args.sendOk tsi e.bucket e.objname then { acc3 with cnt := acc3.cnt + 1 } else acc3

/-- rebManager.retransmit over the sharded table: abort checks before the
sweep and after each shard (Go returns cnt = 0 on abort, with the table
changes made so far kept); abortedAt k is the k-th evaluation of the aborted()
closure. -/
def retransmitShards (args : RetransArgs) (abortedAt : Nat → Bool) :
    Nat → List (List AckEntry) × List (AckEntry × String) × List (AckEntry × String) × Nat →
    List (List AckEntry) → List (List AckEntry) × List (AckEntry × String) ×
      List (AckEntry × String) × Nat
  | _, acc, [] => acc
  | k, (shards, heads, resends, cnt), s :: rest =>
    let r := s.foldl (retransmitStep args) { q := [], heads := heads, resends := resends, cnt := cnt }
    if abortedAt (k + 1) then (shards ++ [r.q] ++ rest, r.heads, r.resends, 0)
    else retransmitShards args abortedAt (k + 1) (shards ++ [r.q], r.heads, r.resends, r.cnt) rest

/-- rebManager.retransmit. -/
def retransmit (args : RetransArgs) (abortedAt : Nat → Bool)
    (shards : List (List AckEntry)) : List (List AckEntry) × List (AckEntry × String) ×
      List (AckEntry × String) × Nat :=
  if abortedAt 0 then (shards, [], [], 0)
  else retransmitShards args abortedAt 0 ([], [], [], 0) shards

/-- heads and resends only grow along the fold, and an entry the fold never
re-adds stays out of the queue. -/
theorem retransmitStep_mono (args : RetransArgs) :
    ∀ (s : List AckEntry) (acc : RetransAcc) (x : AckEntry × String),
      (x ∈ acc.heads → x ∈ (s.foldl (retransmitStep args) acc).heads) ∧
      (x ∈ acc.resends → x ∈ (s.foldl (retransmitStep args) acc).resends) := by
  intro s
  induction s with
  | nil => intro acc x; exact ⟨id, id⟩
  | cons e rest ih =>
    intro acc x
    constructor
    · intro hx
      apply (ih (retransmitStep args acc e) x).1
      unfold retransmitStep
      split
      · exact hx
      · split
        · exact hx
        · dsimp only
          split
          · simp [hx]
          · split <;> simp [hx]
    · intro hx
      apply (ih (retransmitStep args acc e) x).2
      unfold retransmitStep
      split
      · exact hx
      · split
        · exact hx
        · dsimp only
          split
          · exact hx
          · split <;> simp [hx]

/-- Membership in the queue after the fold comes from the accumulator or from
an entry whose HEAD failed. -/
theorem retransmitFold_mem_q (args : RetransArgs) :
    ∀ (s : List AckEntry) (acc : RetransAcc) (e : AckEntry),
      e ∈ (s.foldl (retransmitStep args) acc).q →
      e ∈ acc.q ∨ (e ∈ s ∧ e.loadOk = true ∧ e.lomExists = true ∧
        args.headOk (args.hrw e.bucket e.objname) e.bucket e.objname = false) := by
  intro s
  induction s with
  | nil => intro acc e h; exact Or.inl h
  | cons x rest ih =>
    intro acc e h
    rcases ih (retransmitStep args acc x) e h with hacc | hrest
    · unfold retransmitStep at hacc
      split at hacc
      · exact Or.inl hacc
      · split at hacc
        · exact Or.inl hacc
        · dsimp only at hacc
          split at hacc
          · exact Or.inl hacc
          · rename_i hload hex hhead
            have hq : e ∈ acc.q ++ [x] := by
              split at hacc
              · exact hacc
              · exact hacc
            rcases List.mem_append.mp hq with h2 | h2
            · exact Or.inl h2
            · right
              have hex2 : e = x := List.mem_singleton.mp h2
              subst hex2
              refine ⟨by simp, ?_, ?_, ?_⟩
              · simpa using hload
              · simpa using hex
              · simpa using hhead
    · exact Or.inr ⟨by simp [hrest.1], hrest.2⟩

/-- The fate of a loadable, existing entry in the per-shard sweep: its HEAD is
issued; on HEAD success it is dropped from the queue and never resent; on HEAD
failure it is resent to its HRW target and stays queued. -/
theorem retransmitFold_entry (args : RetransArgs) :
    ∀ (s : List AckEntry) (acc : RetransAcc) (e : AckEntry),
      e ∈ s → e.loadOk = true → e.lomExists = true →
      ((e, args.hrw e.bucket e.objname) ∈ (s.foldl (retransmitStep args) acc).heads ∧
       (args.headOk (args.hrw e.bucket e.objname) e.bucket e.objname = false →
         (e, args.hrw e.bucket e.objname) ∈ (s.foldl (retransmitStep args) acc).resends)) := by
  intro s
  induction s with
  | nil => intro acc e h; exact absurd h (List.not_mem_nil e)
  | cons x rest ih =>
    intro acc e hmem hload hex
    rcases List.mem_cons.mp hmem with rfl | hrest
    · constructor
      · apply (retransmitStep_mono args rest (retransmitStep args acc e) _).1
        unfold retransmitStep
        rw [if_neg (by simp [hload]), if_neg (by simp [hex])]
        dsimp only
        split
        · simp
        · split <;> simp
      · intro hhead
        apply (retransmitStep_mono args rest (retransmitStep args acc e) _).2
        unfold retransmitStep
        rw [if_neg (by simp [hload]), if_neg (by simp [hex])]
        dsimp only
        rw [if_neg (by simp [hhead])]
        split <;> simp
    · exact ih (retransmitStep args acc x) e hrest hload hex

/-- Arguments for the C8 concrete runs. -/
def c8Args : RetransArgs :=
  { hrw := fun _ _ => "t2",
    headOk := fun _ _ _ => false,
    sendOk := fun _ _ _ => true }

/-- A pending entry whose local object no longer exists. -/
def c8Gone : AckEntry :=
  { uname := "u1", bucket := "b", objname := "o1", loadOk := true, lomExists := false }

/-- A pending entry whose local object is intact. -/
def c8Entry : AckEntry :=
  { uname := "u2", bucket := "b", objname := "o2", loadOk := true, lomExists := true }

/-- counterexample for claim C8: a pending entry whose local object no longer
exists is deleted from the table WITHOUT any HEAD being issued — the sweep
performs no HTTP HEAD at all for it, although the claim says a HEAD is issued
for every pending entry. -/
theorem C8_counterexample :
    (retransmit c8Args (fun _ => false) [[c8Gone]]).2.1 = [] ∧
    (retransmit c8Args (fun _ => false) [[c8Gone]]).1 = [[]] := by
  constructor <;> decide

/-- claim C8 (amended): in the retransmission sweep, for every pending entry
whose local object still loads and exists, the sender issues an HTTP HEAD for
the object to its current HRW destination; if the HEAD succeeds the entry is
removed without resending; if the HEAD fails (in particular when it reports
the object absent) the object is re-sent to that destination and the entry
stays pending. Entries whose local object fails to load or no longer exists
are removed without any HEAD. -/
theorem C8_amended (args : RetransArgs) (s : List AckEntry) (e : AckEntry)
    (hmem : e ∈ s) (hload : e.loadOk = true) (hex : e.lomExists = true) :
    ((e, args.hrw e.bucket e.objname) ∈
      (s.foldl (retransmitStep args) { q := [], heads := [], resends := [], cnt := 0 }).heads) ∧
    (args.headOk (args.hrw e.bucket e.objname) e.bucket e.objname = true →
      e ∉ (s.foldl (retransmitStep args) { q := [], heads := [], resends := [], cnt := 0 }).q) ∧
    (args.headOk (args.hrw e.bucket e.objname) e.bucket e.objname = false →
      (e, args.hrw e.bucket e.objname) ∈
        (s.foldl (retransmitStep args) { q := [], heads := [], resends := [], cnt := 0 }).resends) := by
  have h1 := retransmitFold_entry args s
    { q := [], heads := [], resends := [], cnt := 0 } e hmem hload hex
  refine ⟨h1.1, ?_, h1.2⟩
  intro hhead hq
  rcases retransmitFold_mem_q args s _ e hq with habs | hrest
  · simp at habs
  · rw [hhead] at hrest
    exact Bool.true_eq_false.mp hrest.2.2.2

/-- witness for C8_amended: the intact entry's HEAD goes to its HRW target t2
and, the HEAD failing, the object is re-sent to t2. -/
theorem C8_amended_witness :
    (c8Entry, "t2") ∈
      (([[c8Gone], [c8Entry]].getD 1 []).foldl (retransmitStep c8Args)
        { q := [], heads := [], resends := [], cnt := 0 }).heads ∧
    (c8Entry, "t2") ∈
      (([[c8Gone], [c8Entry]].getD 1 []).foldl (retransmitStep c8Args)
        { q := [], heads := [], resends := [], cnt := 0 }).resends := by
  have h := C8_amended c8Args ([[c8Gone], [c8Entry]].getD 1 []) c8Entry
    (by decide) (by decide) (by decide)
  exact ⟨h.1, h.2.2 (by decide)⟩

unseal batchStartsFrom in
/-- claim C7: with batchSize = 8 and 20 broken objects the EC repair loop runs
exactly three batches with starting indices 0, 8, 16 covering 8, 8 and 4
objects, and no object index is processed in more than one batch (the
concatenation of the batches is exactly the index sequence 0..19). -/
theorem C7_batches_8_of_20 :
    batchStarts 8 20 = [0, 8, 16] ∧
    (allBatchIndices 8 20).map List.length = [8, 8, 4] ∧
    (allBatchIndices 8 20).flatten = List.range 20 := by
  refine ⟨?_, ?_, ?_⟩ <;> decide
